import Mathlib

/-!
Verification of `static/rawdocs/js/rlhf_annotation.js`.

A shallow embedding of the annotation review controller: cookie parsing
(`getCookie`), the metric computations of `showValidationSuccess` and
`showLearningWidget`, and the request/response driven UI state machine formed by
`annotateWithGroq`, `validatePage` and `showLearningWidget`.

Conventions.
* JavaScript strings are lists of code points (`List Char`) where the code
  inspects them character by character, and `String` where they are only
  concatenated.
* A promise chain `fetch(..).then(..).catch(..).finally(..)` is a pending request
  recorded in the page state; its settling is a separate step of the machine.
* Elements the script dereferences without a guard (`groq-annotate-btn`,
  `ai-loading`, `text-content`, `.main-content`, `document.body`) are part of
  every page; elements it guards with `if (el)` are optional.
* Timers (`setTimeout`) are recorded when scheduled and never fire in the model.
* The `DOMContentLoaded` handler only calls `showLearningWidget` and decorates
  annotation items; a loaded page may therefore have dashboard requests
  outstanding, and the decoration is not represented.
-/

namespace RlhfAnnotation

/-! ## Strings -/

/-- Code points removed by `String.prototype.trim`: the ECMAScript `WhiteSpace`
and `LineTerminator` productions. -/
def isJsWhitespace (c : Char) : Bool :=
  let n := c.toNat
  n == 0x09 || n == 0x0A || n == 0x0B || n == 0x0C || n == 0x0D || n == 0x20 ||
  n == 0xA0 || n == 0x1680 || (0x2000 ≤ n && n ≤ 0x200A) || n == 0x2028 ||
  n == 0x2029 || n == 0x202F || n == 0x205F || n == 0x3000 || n == 0xFEFF

/-- Leading white space removed. -/
def trimStart : List Char → List Char
  | [] => []
  | c :: cs => if isJsWhitespace c then trimStart cs else c :: cs

/-- Trailing white space removed. -/
def trimEnd (s : List Char) : List Char :=
  (trimStart s.reverse).reverse

/-- `s.trim()`. -/
def trim (s : List Char) : List Char :=
  trimEnd (trimStart s)

/-- `s.split(sep)` for a one-character separator: the pieces between the
separators, in order; the empty string gives one empty piece. -/
def split (sep : Char) : List Char → List (List Char)
  | [] => [[]]
  | c :: cs =>
    if c = sep then [] :: split sep cs
    else
      match split sep cs with
      | [] => [[c]]
      | p :: ps => (c :: p) :: ps

/-- `s.substring(0, n)`. -/
def substringTo (s : List Char) (n : Nat) : List Char :=
  s.take n

/-- `s.substring(n)`. -/
def substringFrom (s : List Char) (n : Nat) : List Char :=
  s.drop n

/-! ## `decodeURIComponent` -/

/-- Value of a hexadecimal digit. -/
def hexValue (c : Char) : Option Nat :=
  let n := c.toNat
  if 0x30 ≤ n ∧ n ≤ 0x39 then some (n - 0x30)
  else if 0x41 ≤ n ∧ n ≤ 0x46 then some (n - 0x41 + 10)
  else if 0x61 ≤ n ∧ n ≤ 0x66 then some (n - 0x61 + 10)
  else none

/-- The octet written `%h1h2`. -/
def hexOctet (h1 h2 : Char) : Option Nat :=
  match hexValue h1, hexValue h2 with
  | some a, some b => some (16 * a + b)
  | _, _ => none

/-- Number of leading one bits of an octet. -/
def leadingOnes (b : Nat) : Nat :=
  if b < 0x80 then 0
  else if b < 0xC0 then 1
  else if b < 0xE0 then 2
  else if b < 0xF0 then 3
  else if b < 0xF8 then 4
  else 5

/-- Reads `k` continuation groups `%XX` from the front of the input, returning
their octets and the remaining input. -/
def takeOctets : Nat → List Char → Option (List Nat × List Char)
  | 0, s => some ([], s)
  | k + 1, '%' :: h1 :: h2 :: rest =>
    match hexOctet h1 h2 with
    | none => none
    | some b =>
      match takeOctets k rest with
      | none => none
      | some (bs, rest2) => some (b :: bs, rest2)
  | _ + 1, _ => none

/-- The code point encoded by a UTF-8 sequence of `n` octets with first octet
`b`, when the sequence is a valid encoding (continuation octets are `10xxxxxx`,
the encoding is the shortest one, and the code point is a scalar value). -/
def utf8CodePoint (n b : Nat) (cont : List Nat) : Option Nat :=
  if cont.all (fun c => 0x80 ≤ c && c < 0xC0) then
    let lead := if n = 2 then b - 0xC0 else if n = 3 then b - 0xE0 else b - 0xF0
    let v := cont.foldl (fun acc c => acc * 64 + (c - 0x80)) lead
    let lowest := if n = 2 then 0x80 else if n = 3 then 0x800 else 0x10000
    if lowest ≤ v ∧ v ≤ 0x10FFFF ∧ ¬ (0xD800 ≤ v ∧ v ≤ 0xDFFF) then some v else none
  else none

/-- The `Decode` loop of `decodeURIComponent` with an empty reserved set;
`none` is the `URIError` exception. The first argument bounds the number of
iterations. -/
def decodeLoop : Nat → List Char → Option (List Char)
  | 0, _ => none
  | _ + 1, [] => some []
  | fuel + 1, c :: cs =>
    if c ≠ '%' then (decodeLoop fuel cs).map (c :: ·)
    else
      match cs with
      | h1 :: h2 :: rest =>
        match hexOctet h1 h2 with
        | none => none
        | some b =>
          let n := leadingOnes b
          if n = 0 then (decodeLoop fuel rest).map (Char.ofNat b :: ·)
          else if n = 1 ∨ 4 < n then none
          else
            match takeOctets (n - 1) rest with
            | none => none
            | some (bs, rest2) =>
              match utf8CodePoint n b bs with
              | none => none
              | some v => (decodeLoop fuel rest2).map (Char.ofNat v :: ·)
      | _ => none

/-- `decodeURIComponent(s)`; `none` when it throws `URIError`. Every iteration
of the loop consumes at least one character, so `s.length + 1` iterations
suffice. -/
def decodeURIComponent (s : List Char) : Option (List Char) :=
  decodeLoop (s.length + 1) s

/-! ## `getCookie` -/

/-- The `for` loop of `getCookie` over the pieces of `document.cookie`: the first
piece whose trimmed text starts with `name + '='` ends the loop with the decoded
rest of that piece. The outer `Option` is `none` when `decodeURIComponent`
throws; the inner one is the returned `cookieValue`. -/
def getCookieLoop (name : List Char) : List (List Char) → Option (Option (List Char))
  | [] => some none
  | piece :: rest =>
    let cookie := trim piece
    if substringTo cookie (name.length + 1) = name ++ ['='] then
      match decodeURIComponent (substringFrom cookie (name.length + 1)) with
      | none => none
      | some v => some (some v)
    else getCookieLoop name rest

/-- `getCookie(name)` evaluated with `document.cookie = documentCookie`. -/
def getCookie (documentCookie name : List Char) : Option (Option (List Char)) :=
  if documentCookie ≠ [] then getCookieLoop name (split ';' documentCookie)
  else some none

/-- A cookie as it appears in `document.cookie`: optional white space, the name,
`=`, the value, optional white space. -/
structure CookieEntry where
  padLeft : List Char
  name : List Char
  value : List Char
  padRight : List Char

/-- The text of an entry. -/
def CookieEntry.text (e : CookieEntry) : List Char :=
  e.padLeft ++ (e.name ++ '=' :: e.value) ++ e.padRight

/-- An entry is a `name=value` pair with surrounding white space: the padding is
white space, the name holds no `;` or `=` and does not start with white space,
and the value holds no `;` or percent-escape and does not end with white space. -/
def CookieEntry.wellFormed (e : CookieEntry) : Bool :=
  e.padLeft.all isJsWhitespace && e.padRight.all isJsWhitespace &&
  !e.name.contains ';' && !e.name.contains '=' &&
  !(e.name.head?.any isJsWhitespace) &&
  !e.value.contains ';' && !e.value.contains '%' &&
  !(e.value.getLast?.any isJsWhitespace)

/-- The cookie string: the entries separated by `;`. -/
def cookieString : List CookieEntry → List Char
  | [] => []
  | [e] => e.text
  | e :: es => e.text ++ ';' :: cookieString es

/-- The value of the first entry named `n`, if any. -/
def firstNamed (n : List Char) (entries : List CookieEntry) : Option (List Char) :=
  (entries.find? (fun e => decide (e.name = n))).map (fun e => e.value)

/-! ## Numbers

The scores are JavaScript Numbers (IEEE-754 binary64). The data model restricts
them to `0.0 .. 1.0`, so only finite non-negative values are represented, as an
integer significand and a binary exponent. -/

/-- The finite non-negative Number `m * 2 ^ e`. -/
structure F64 where
  m : Nat
  e : Int
deriving DecidableEq, Repr

/-- The exact value. -/
def F64.toRat (x : F64) : ℚ :=
  (x.m : ℚ) * (2 : ℚ) ^ x.e

/-- The values of binary64: significands of at most 53 bits, exponents from the
subnormal `2 ^ (-1074)` up to the largest binade. -/
def F64.isBinary64 (x : F64) : Bool :=
  decide (x.m < 2 ^ 53) && decide (-1074 ≤ x.e) && decide (x.e ≤ 971)

/-- The number of low bits that have to be dropped from `p` to leave at most 53
bits; the first argument bounds the number of halvings. -/
def excessBits : Nat → Nat → Nat
  | 0, _ => 0
  | fuel + 1, p => if p < 2 ^ 53 then 0 else excessBits fuel (p / 2) + 1

/-- The binary64 nearest to `p * 2 ^ e`, ties to the even significand (the IEEE
default rounding). The exponent `e` is at least `-1074`, so the result is never
below the subnormal spacing; overflow to `Infinity` (results of `2 ^ 1024` and
more) is outside the represented range. -/
def roundToBinary64 (p : Nat) (e : Int) : F64 :=
  let sh := excessBits p p
  let q := p / 2 ^ sh
  let r := p % 2 ^ sh
  let half := 2 ^ (sh - 1)
  if sh = 0 then ⟨p, e⟩
  else if half < r ∨ (r = half ∧ q % 2 = 1) then ⟨q + 1, e + sh⟩
  else ⟨q, e + sh⟩

/-- The integer `m` is a nearest one to `p / 2 ^ sh`, and the even one when `p`
lies halfway between two integers: round to nearest, ties to even. -/
def nearestTiesEven (p sh m : Nat) : Prop :=
  2 * (m * 2 ^ sh) ≤ 2 * p + 2 ^ sh ∧
  2 * p ≤ 2 * (m * 2 ^ sh) + 2 ^ sh ∧
  ((2 * (m * 2 ^ sh) = 2 * p + 2 ^ sh ∨ 2 * (m * 2 ^ sh) + 2 ^ sh = 2 * p) → m % 2 = 0)

/-- The Number `100`. -/
def F64.hundred : F64 := ⟨25, 2⟩

/-- The product `x * y` of JavaScript: the exact product rounded to binary64, for
factors whose exponents sum to `-1074` or more (always so when one factor is
`100`). -/
def F64.mul (x y : F64) : F64 :=
  roundToBinary64 (x.m * y.m) (x.e + y.e)

/-- The integer `n` chosen by `x.toFixed(0)`: the one for which `n - x` is
closest to zero, the larger one when there are two. -/
def toFixedInt (x : F64) : Nat :=
  if 0 ≤ x.e then x.m * 2 ^ x.e.toNat
  else (x.m + 2 ^ ((-x.e).toNat - 1)) / 2 ^ (-x.e).toNat

/-- `x.toFixed(0)` for `x < 1e21`: the decimal digits of the chosen integer. -/
def toFixed0 (x : F64) : String :=
  Nat.repr (toFixedInt x)

/-! ## `showValidationSuccess` -/

/-- The `corrections_summary` of a ValidatePage response: four optional
sequences. Their entries are only counted, never inspected, and are represented
by numbers. -/
structure Corrections where
  kept_correct : Option (List Nat)
  false_positives : Option (List Nat)
  false_negatives : Option (List Nat)
  wrong_classifications : Option (List Nat)
deriving DecidableEq, Repr

/-- `xs?.length || 0`. -/
def lengthOrZero : Option (List Nat) → Nat
  | none => 0
  | some xs => xs.length

/-- The metrics computed at the start of `showValidationSuccess`. -/
structure Metrics where
  aiCorrect : Nat
  aiWrong : Nat
  aiMissed : Nat
  aiWrongType : Nat
  totalExpected : Nat
deriving DecidableEq, Repr

/-- The `const` declarations of `showValidationSuccess`. -/
def computeMetrics (corrections : Corrections) : Metrics :=
  let aiCorrect := lengthOrZero corrections.kept_correct
  let aiWrong := lengthOrZero corrections.false_positives
  let aiMissed := lengthOrZero corrections.false_negatives
  let aiWrongType := lengthOrZero corrections.wrong_classifications
  let totalExpected := aiCorrect + aiWrong + aiMissed + aiWrongType
  ⟨aiCorrect, aiWrong, aiMissed, aiWrongType, totalExpected⟩

/-- The text of the score row: the score as a percentage without decimals. -/
def realScoreText (feedbackScore : F64) : String :=
  "Real Score: " ++ toFixed0 (feedbackScore.mul F64.hundred) ++ "%"

/-- The text of the total row. -/
def totalExpectedText (k : Metrics) : String :=
  "Total Expected: " ++ Nat.repr k.totalExpected

/-- The row shown only when `aiWrongType > 0`. -/
def wrongTypeRow (k : Metrics) : String :=
  if k.aiWrongType > 0 then
    "\n" ++
    "                    <div class=\"metric-row\">\n" ++
    "                        <span class=\"metric-icon\">🔄</span>\n" ++
    "                        <span class=\"metric-text\">AI Wrong Type: " ++
    Nat.repr k.aiWrongType ++
    "</span>\n" ++
    "                    </div>\n" ++
    "                    "
  else ""

/-- The template up to and including the optional wrong-type row. -/
def validationHtmlHead (message : String) (k : Metrics) : String :=
  "\n" ++
  "        <i class=\"fas fa-graduation-cap\"></i>\n" ++
  "        <div>\n" ++
  "            <strong>" ++
  message ++
  "</strong>\n" ++
  "            <div class=\"validation-details\">\n" ++
  "                <div class=\"feedback-breakdown\">\n" ++
  "                    <div class=\"metric-row\">\n" ++
  "                        <span class=\"metric-icon\">✅</span>\n" ++
  "                        <span class=\"metric-text\">AI Correct (kept): " ++
  Nat.repr k.aiCorrect ++
  "</span>\n" ++
  "                    </div>\n" ++
  "                    <div class=\"metric-row\">\n" ++
  "                        <span class=\"metric-icon\">❌</span>\n" ++
  "                        <span class=\"metric-text\">AI Wrong (deleted): " ++
  Nat.repr k.aiWrong ++
  "</span>\n" ++
  "                    </div>\n" ++
  "                    <div class=\"metric-row\">\n" ++
  "                        <span class=\"metric-icon\">➕</span>\n" ++
  "                        <span class=\"metric-text\">AI Missed (you added): " ++
  Nat.repr k.aiMissed ++
  "</span>\n" ++
  "                    </div>\n" ++
  "                    " ++
  wrongTypeRow k

/-- The `innerHTML` assigned to the success element. -/
def validationHtml (message : String) (feedbackScore : F64) (corrections : Corrections) :
    String :=
  let k := computeMetrics corrections
  validationHtmlHead message k ++
  "\n" ++
  "                    <div class=\"metric-row total\">\n" ++
  "                        <span class=\"metric-icon\">📊</span>\n" ++
  "                        <span class=\"metric-text\">" ++
  totalExpectedText k ++
  "</span>\n" ++
  "                    </div>\n" ++
  "                    <div class=\"metric-row score\">\n" ++
  "                        <span class=\"metric-icon\">🎯</span>\n" ++
  "                        <span class=\"metric-text\">" ++
  realScoreText feedbackScore ++
  "</span>\n" ++
  "                    </div>\n" ++
  "                </div>\n" ++
  "            </div>\n" ++
  "        </div>\n" ++
  "    "

/-! ## `showLearningWidget`

The script declares `showLearningWidget` twice. Function declarations are
hoisted and the later one replaces the earlier one, so the second declaration is
the one every call reaches. Both are embedded. -/

/-- A LearningSnapshot response. -/
structure LearningSnapshot where
  average_feedback_score : F64
  total_feedbacks : Nat
deriving DecidableEq, Repr

/-- The Number denoted by a string of decimal digits (`ToNumber` on the output
of `toFixed(0)`; the empty string denotes `0`); `none` stands for `NaN`. -/
def digitsToNumber (cs : List Char) : Option Nat :=
  cs.foldl
    (fun acc c =>
      match acc with
      | none => none
      | some n => if c.isDigit then some (10 * n + (c.toNat - 48)) else none)
    (some 0)

/-- The comparison `s >= k` of a string with a Number: the string is converted
to a Number first, and a comparison with `NaN` is false. -/
def stringGe (s : String) (k : Nat) : Bool :=
  match digitsToNumber s.data with
  | some n => decide (k ≤ n)
  | none => false

/-- The `if` chain of the first declaration: `performanceLevel` and
`performanceIcon`. -/
def performance (avgScore : String) : String × String :=
  if stringGe avgScore 90 then ("Excellent", "🏆")
  else if stringGe avgScore 75 then ("Good", "👍")
  else if stringGe avgScore 50 then ("Learning", "🎓")
  else ("Needs Training", "📚")

/-- The template literal of the first declaration. -/
def tieredTemplate (avgScore performanceIcon performanceLevel validations : String) :
    String :=
  "\n" ++
  "                <h4><i class=\"fas fa-chart-line\"></i> Progrès d\x27Apprentissage IA</h4>\n" ++
  "                <div class=\"learning-metrics\">\n" ++
  "                    <div class=\"metric\">\n" ++
  "                        <span class=\"metric-label\">Score Réel (avec manqués):</span>\n" ++
  "                        <span class=\"metric-value\">" ++
  avgScore ++
  "%</span>\n" ++
  "                        <span class=\"performance-indicator\">" ++
  performanceIcon ++
  " " ++
  performanceLevel ++
  "</span>\n" ++
  "                    </div>\n" ++
  "                    <div class=\"metric\">\n" ++
  "                        <span class=\"metric-label\">Total Validations:</span>\n" ++
  "                        <span class=\"metric-value\">" ++
  validations ++
  "</span>\n" ++
  "                    </div>\n" ++
  "                    <div class=\"metric\">\n" ++
  "                        <span class=\"metric-label\">Amélioration:</span>\n" ++
  "                        <span class=\"metric-trend\">📈 Active</span>\n" ++
  "                    </div>\n" ++
  "                </div>\n" ++
  "                <div class=\"learning-explanation\">\n" ++
  "                    <small>\n" ++
  "                        <i class=\"fas fa-info-circle\"></i>\n" ++
  "                        Le score inclut: annotations correctes, erreurs supprimées, et manquées ajoutées\n" ++
  "                    </small>\n" ++
  "                </div>\n" ++
  "            "

/-- The `innerHTML` written by the first declaration (source lines 170 to 236). -/
def learningWidgetHtmlTiered (d : LearningSnapshot) : String :=
  let avgScore := toFixed0 (d.average_feedback_score.mul F64.hundred)
  let validations := Nat.repr d.total_feedbacks
  let perf := performance avgScore
  tieredTemplate avgScore perf.2 perf.1 validations

/-- The `innerHTML` written by the second declaration (source lines 239 to 278),
the one in effect. -/
def learningWidgetHtml (d : LearningSnapshot) : String :=
  "\n" ++
  "                <h4><i class=\"fas fa-chart-line\"></i> Progrès d\x27Apprentissage IA</h4>\n" ++
  "                <div class=\"learning-metrics\">\n" ++
  "                    <div class=\"metric\">\n" ++
  "                        <span class=\"metric-label\">Score Feedback Moyen:</span>\n" ++
  "                        <span class=\"metric-value\">" ++
  toFixed0 (d.average_feedback_score.mul F64.hundred) ++
  "%</span>\n" ++
  "                    </div>\n" ++
  "                    <div class=\"metric\">\n" ++
  "                        <span class=\"metric-label\">Total Validations:</span>\n" ++
  "                        <span class=\"metric-value\">" ++
  Nat.repr d.total_feedbacks ++
  "</span>\n" ++
  "                    </div>\n" ++
  "                    <div class=\"metric\">\n" ++
  "                        <span class=\"metric-label\">Amélioration:</span>\n" ++
  "                        <span class=\"metric-trend\">📈 Active</span>\n" ++
  "                    </div>\n" ++
  "                </div>\n" ++
  "            "

/-! ## The page -/

/-- A notification element: its class and the markup assigned to it. -/
structure Alert where
  className : String
  innerHTML : String
deriving DecidableEq, Repr

/-- The validation trigger `#validate-page-btn`. -/
structure ValidateBtn where
  disabled : Bool
  innerHTML : String
  classList : List String
deriving DecidableEq, Repr

/-- An element with id `learning-widget`. -/
structure Widget where
  className : String
  innerHTML : String
  display : String
deriving DecidableEq, Repr

/-- A request handed to `fetch`. The token is the value of `getCookie`, which is
`null` when the cookie is missing. -/
inductive Request
  | post (url : String) (csrfToken : Option (List Char))
  | get (url : String)
deriving DecidableEq, Repr

/-- What a timer does when it fires. -/
inductive TimerAction
  | removeAlert
  | removeValidationSuccess
  | reload
deriving DecidableEq, Repr

/-- The part of the document and of the runtime the script reads and writes. -/
structure Page where
  /-- Text of `document.cookie`. -/
  cookie : List Char
  /-- Attribute `data-page-id` of `#text-content`. -/
  pageId : String
  /-- Style `display` of `#groq-annotate-btn`. -/
  annotateBtnDisplay : String
  /-- Style `display` of `#ai-loading`. -/
  aiLoadingDisplay : String
  /-- Element `#validate-page-btn`, when the page has one. -/
  validateBtn : Option ValidateBtn
  /-- Style `display` of `#learning-progress`, when the page has one. -/
  learningProgress : Option String
  /-- Elements inserted at the front of `.main-content`, newest first. -/
  mainContentFront : List Alert
  /-- Elements appended to `document.body`, oldest first. -/
  bodyAlerts : List Alert
  /-- Elements with id `learning-widget`, in document order. -/
  widgets : List Widget
  /-- Element `#page-select`, when present, with the text of its checked option,
  when it has one. -/
  pageSelect : Option (Option (List Char))
  /-- Every request issued so far, oldest first. -/
  requests : List Request
  /-- Number of AutoAnnotate requests that have not settled. -/
  pendingAnnotate : Nat
  /-- Number of ValidatePage requests that have not settled. -/
  pendingValidate : Nat
  /-- Number of LearningDashboard requests that have not settled. -/
  pendingDashboard : Nat
  /-- Timers scheduled so far, with their delay in milliseconds. -/
  timers : List (Nat × TimerAction)
deriving DecidableEq, Repr

/-- Label of the trigger before validation. -/
def validateLabel : String :=
  "<i class=\"fas fa-graduation-cap\"></i> Validate Page"

/-- Label of the trigger while a validation runs. -/
def validatingLabel : String :=
  "<i class=\"fas fa-spinner fa-spin\"></i> Validation..."

/-- Label of the trigger of a validated page. -/
def validatedLabel : String :=
  "<i class=\"fas fa-check-circle\"></i> Page Validée 🎓"

/-- `showSuccessMessage(message)`. -/
def showSuccessMessage (message : String) (p : Page) : Page :=
  { p with
    bodyAlerts := p.bodyAlerts ++
      [⟨"alert alert-success", "<i class=\"fas fa-check-circle\"></i> " ++ message⟩]
    timers := p.timers ++ [(4000, TimerAction.removeAlert)] }

/-- `showErrorMessage(message)`. -/
def showErrorMessage (message : String) (p : Page) : Page :=
  { p with
    bodyAlerts := p.bodyAlerts ++
      [⟨"alert alert-error", "<i class=\"fas fa-exclamation-circle\"></i> " ++ message⟩]
    timers := p.timers ++ [(4000, TimerAction.removeAlert)] }

/-- `showValidationSuccess(message, feedbackScore, corrections)`. -/
def showValidationSuccess (message : String) (feedbackScore : F64)
    (corrections : Corrections) (p : Page) : Page :=
  { p with
    mainContentFront :=
      ⟨"validation-success", validationHtml message feedbackScore corrections⟩ ::
        p.mainContentFront
    timers := p.timers ++ [(8000, TimerAction.removeValidationSuccess)] }

/-- The synchronous part of `showLearningWidget(data)`, the same in both
declarations: the widget is looked up by id and created at the end of
`.main-content` when there is none, then the dashboard is requested. -/
def showLearningWidget (p : Page) : Page :=
  let widgets :=
    match p.widgets with
    | [] => [⟨"learning-dashboard-widget", "", ""⟩]
    | w :: ws => w :: ws
  { p with
    widgets := widgets
    requests := p.requests ++ [Request.get "/learning/dashboard/"]
    pendingDashboard := p.pendingDashboard + 1 }

/-- `s.replace(a, b)` for one-character strings: the first `a` becomes `b`. -/
def replaceFirst (a b : Char) : List Char → List Char
  | [] => []
  | c :: cs => if c = a then b :: cs else c :: replaceFirst a b cs

/-- `updatePageSelector()`. -/
def updatePageSelector (p : Page) : Page :=
  match p.pageSelect with
  | some (some text) =>
    if !text.contains '🎓' then
      { p with pageSelect := some (some (replaceFirst '✅' '🎓' text)) }
    else p
  | _ => p

/-- `classList.add(c)`. -/
def classListAdd (c : String) (classList : List String) : List String :=
  if c ∈ classList then classList else classList ++ [c]

/-! ## Requests and their outcomes -/

/-- How an AutoAnnotate request settles: a response with `success` true, one
with `success` false, or a network or parse error. -/
inductive AnnotateOutcome
  | success (annotations_created : Nat)
  | failure (error : String)
  | transportError
deriving DecidableEq, Repr

/-- How a ValidatePage request settles. A successful response may lack its
`corrections_summary`. -/
inductive ValidateOutcome
  | success (message : String) (feedback_score : F64)
      (corrections_summary : Option Corrections)
  | failure (error : String)
  | transportError
deriving DecidableEq, Repr

/-- How a LearningDashboard request settles. -/
inductive DashboardOutcome
  | success (learningData : LearningSnapshot)
  | transportError
deriving DecidableEq, Repr

/-- The synchronous part of `annotateWithGroq()`. When `getCookie` throws, the
exception leaves the function before `fetch` is called. -/
def annotateWithGroq (p : Page) : Page :=
  let p1 := { p with annotateBtnDisplay := "none", aiLoadingDisplay := "flex" }
  match getCookie p.cookie "csrftoken".toList with
  | none => p1
  | some token =>
    { p1 with
      requests := p1.requests ++
        [Request.post ("/annotation/groq/" ++ p.pageId ++ "/") token]
      pendingAnnotate := p1.pendingAnnotate + 1 }

/-- The `finally` handler of `annotateWithGroq`. -/
def annotateFinally (p : Page) : Page :=
  { p with annotateBtnDisplay := "flex", aiLoadingDisplay := "none" }

/-- The promise chain of `annotateWithGroq` run on the outcome of its request. -/
def annotateSettled (o : AnnotateOutcome) (p : Page) : Page :=
  let p0 := { p with pendingAnnotate := p.pendingAnnotate - 1 }
  match o with
  | AnnotateOutcome.success n =>
    let p1 := showSuccessMessage
      ("🎉 " ++ Nat.repr n ++ " annotations créées avec IA améliorée!") p0
    let p2 := { p1 with
      validateBtn := p1.validateBtn.map
        (fun (b : ValidateBtn) => { b with disabled := false, innerHTML := validateLabel }) }
    let p3 := { p2 with timers := p2.timers ++ [(1500, TimerAction.reload)] }
    annotateFinally p3
  | AnnotateOutcome.failure error =>
    annotateFinally (showErrorMessage ("Erreur: " ++ error) p0)
  | AnnotateOutcome.transportError =>
    annotateFinally (showErrorMessage "Erreur lors de l\x27annotation automatique" p0)

/-- The synchronous part of `validatePage()`; `confirmed` is the answer to the
confirmation prompt. Without the trigger element the assignment to
`btn.disabled` throws. -/
def validatePage (confirmed : Bool) (p : Page) : Page :=
  if !confirmed then p
  else
    match p.validateBtn with
    | none => p
    | some b =>
      let p1 := { p with
        validateBtn := some { b with disabled := true, innerHTML := validatingLabel }
        learningProgress := p.learningProgress.map (fun _ => "flex") }
      match getCookie p.cookie "csrftoken".toList with
      | none => p1
      | some token =>
        { p1 with
          requests := p1.requests ++
            [Request.post ("/annotation/validate-page/" ++ p.pageId ++ "/") token]
          pendingValidate := p1.pendingValidate + 1 }

/-- The `catch` handler of `validatePage`. -/
def validateCatch (p : Page) : Page :=
  let p1 := showErrorMessage "Erreur lors de la validation de la page" p
  { p1 with
    validateBtn := p1.validateBtn.map
      (fun (b : ValidateBtn) => { b with disabled := false, innerHTML := validateLabel }) }

/-- The `finally` handler of `validatePage`. -/
def validateFinally (p : Page) : Page :=
  { p with learningProgress := p.learningProgress.map (fun _ => "none") }

/-- The promise chain of `validatePage` run on the outcome of its request. A
success response without `corrections_summary` makes `showValidationSuccess`
throw before it changes anything, which hands control to the `catch` handler. -/
def validateSettled (o : ValidateOutcome) (p : Page) : Page :=
  let p0 := { p with pendingValidate := p.pendingValidate - 1 }
  match o with
  | ValidateOutcome.success message feedbackScore (some corrections) =>
    let p1 := showValidationSuccess message feedbackScore corrections p0
    let p2 := { p1 with
      validateBtn := p1.validateBtn.map
        (fun (b : ValidateBtn) => { b with
          innerHTML := validatedLabel
          classList := classListAdd "validated" b.classList }) }
    validateFinally (updatePageSelector (showLearningWidget p2))
  | ValidateOutcome.success _ _ none =>
    validateFinally (validateCatch p0)
  | ValidateOutcome.failure error =>
    let p1 := showErrorMessage ("Erreur: " ++ error) p0
    validateFinally { p1 with
      validateBtn := p1.validateBtn.map
        (fun (b : ValidateBtn) => { b with disabled := false, innerHTML := validateLabel }) }
  | ValidateOutcome.transportError =>
    validateFinally (validateCatch p0)

/-- The promise chain of `showLearningWidget` run on the outcome of its request,
for a given rendering of the snapshot: the element found or created by the call
receives the markup and is displayed; an error is only logged. -/
def dashboardSettledWith (render : LearningSnapshot → String) (o : DashboardOutcome)
    (p : Page) : Page :=
  let p0 := { p with pendingDashboard := p.pendingDashboard - 1 }
  match o with
  | DashboardOutcome.success learningData =>
    match p0.widgets with
    | [] => p0
    | w :: ws =>
      { p0 with
        widgets := { w with innerHTML := render learningData, display := "block" } :: ws }
  | DashboardOutcome.transportError => p0

/-- The promise chain of the declaration in effect. -/
def dashboardSettled (o : DashboardOutcome) (p : Page) : Page :=
  dashboardSettledWith learningWidgetHtml o p

/-! ## The UI state machine -/

/-- The steps of the page: a click on a control, with the answer to the
confirmation prompt for the validation trigger, and the settling of an
outstanding request. -/
inductive Step
  | clickAnnotate
  | clickValidate (confirmed : Bool)
  | annotateSettles (o : AnnotateOutcome)
  | validateSettles (o : ValidateOutcome)
  | dashboardSettles (o : DashboardOutcome)
deriving DecidableEq, Repr

/-- One step. A click needs its control to be visible and enabled, a settling
needs an outstanding request of its kind; otherwise the step cannot happen. -/
def step (p : Page) : Step → Option Page
  | Step.clickAnnotate =>
    if p.annotateBtnDisplay ≠ "none" then some (annotateWithGroq p) else none
  | Step.clickValidate confirmed =>
    match p.validateBtn with
    | some b => if b.disabled then none else some (validatePage confirmed p)
    | none => none
  | Step.annotateSettles o =>
    if 0 < p.pendingAnnotate then some (annotateSettled o p) else none
  | Step.validateSettles o =>
    if 0 < p.pendingValidate then some (validateSettled o p) else none
  | Step.dashboardSettles o =>
    if 0 < p.pendingDashboard then some (dashboardSettled o p) else none

/-- A sequence of steps; `none` when one of them cannot happen. -/
def run (p : Page) : List Step → Option Page
  | [] => some p
  | s :: rest =>
    match step p s with
    | none => none
    | some q => run q rest

/-- A page as loaded: no AutoAnnotate or ValidatePage request is outstanding. -/
def Page.isLoaded (p : Page) : Bool :=
  p.pendingAnnotate == 0 && p.pendingValidate == 0

/-- The states of the machine: those a loaded page reaches by some steps. -/
def Reachable (p : Page) : Prop :=
  ∃ (p0 : Page) (steps : List Step), p0.isLoaded = true ∧ run p0 steps = some p

/-- An AutoAnnotate request settling with success while a ValidatePage request
is outstanding. -/
def Step.overlapsValidation (p : Page) : Step → Bool
  | Step.annotateSettles (AnnotateOutcome.success _) => decide (0 < p.pendingValidate)
  | _ => false

/-- A sequence of steps none of which is an AutoAnnotate success arriving
during a validation. -/
def runApart (p : Page) : List Step → Option Page
  | [] => some p
  | s :: rest =>
    if s.overlapsValidation p then none
    else
      match step p s with
      | none => none
      | some q => runApart q rest

/-- A page with both triggers usable and nothing outstanding. -/
def samplePage : Page :=
  { cookie := "a=1; csrftoken=XYZ; b=2".toList
    pageId := "7"
    annotateBtnDisplay := ""
    aiLoadingDisplay := "none"
    validateBtn := some ⟨false, validateLabel, []⟩
    learningProgress := some "none"
    mainContentFront := []
    bodyAlerts := []
    widgets := []
    pageSelect := some (some "Page 7 ✅".toList)
    requests := []
    pendingAnnotate := 0
    pendingValidate := 0
    pendingDashboard := 0
    timers := [] }

/-- `hay.includes(needle)`. -/
def includes (hay needle : List Char) : Bool :=
  hay.tails.any (fun t => needle.isPrefixOf t)

/-- The four qualitative labels of the first declaration. -/
def performanceLabels : List String :=
  ["Excellent", "Good", "Learning", "Needs Training"]

/-- A snapshot whose score `15 / 16 = 0.9375` is a binary64 value, with the exact
product `93.75`. -/
def excellentSnapshot : LearningSnapshot :=
  ⟨⟨15, -4⟩, 12⟩

/-- A snapshot whose score `115 / 128 = 0.8984375` is a binary64 value, with the
exact product `89.84375`. -/
def sampleSnapshot : LearningSnapshot :=
  ⟨⟨115, -7⟩, 12⟩

/-- At most one ValidatePage request is outstanding, and while one is, the
trigger exists and is disabled. -/
def singleFlight (p : Page) : Bool :=
  decide (p.pendingValidate ≤ 1) &&
  (p.pendingValidate == 0 || p.validateBtn.any (fun b => b.disabled))

/-- The validated state: no ValidatePage request is outstanding and the trigger
is disabled with the validated label. -/
def isValidated (p : Page) : Bool :=
  p.pendingValidate == 0 &&
  p.validateBtn.any (fun b => b.disabled && b.innerHTML == validatedLabel)

/-- An AutoAnnotate request settling with success. -/
def Step.isAnnotateSuccess : Step → Bool
  | Step.annotateSettles (AnnotateOutcome.success _) => true
  | _ => false

/-- A ValidatePage response with `success` true and a `corrections_summary`. -/
def sampleValidation : ValidateOutcome :=
  ValidateOutcome.success "ok" ⟨7890306547153109, -53⟩
    (some ⟨some [1, 2], some [3], some [], some []⟩)

/-- The page after a click on the validation trigger, confirmed. -/
def sampleValidating : Page :=
  validatePage true samplePage

/-- A run in which the AutoAnnotate request settles before the validation is
started. -/
def sampleSteps : List Step :=
  [Step.clickAnnotate, Step.annotateSettles (AnnotateOutcome.success 5),
    Step.clickValidate true]

/-- A run in which the AutoAnnotate request settles with success while the
ValidatePage request is outstanding, and the trigger is clicked again. -/
def overlappingSteps : List Step :=
  [Step.clickAnnotate, Step.clickValidate true,
    Step.annotateSettles (AnnotateOutcome.success 5), Step.clickValidate true]

/-- A run in which a page is validated and then annotated again. -/
def revalidationSteps : List Step :=
  [Step.clickValidate true, Step.validateSettles sampleValidation,
    Step.clickAnnotate, Step.annotateSettles (AnnotateOutcome.success 5)]

/-- Steps after a validation none of which is an AutoAnnotate success. -/
def quietSteps : List Step :=
  [Step.clickAnnotate, Step.annotateSettles (AnnotateOutcome.failure "x"),
    Step.dashboardSettles (DashboardOutcome.success sampleSnapshot),
    Step.clickAnnotate, Step.annotateSettles AnnotateOutcome.transportError]

/-! ## Lemmas on strings -/

theorem split_of_not_mem (sep : Char) (s : List Char) (h : sep ∉ s) :
    split sep s = [s] := by
  induction s with
  | nil => rfl
  | cons c cs ih =>
    have hc : c ≠ sep := fun hEq => h (by simp [hEq])
    have hcs : sep ∉ cs := fun hm => h (List.mem_cons_of_mem _ hm)
    simp [split, hc, ih hcs]

theorem split_append_sep (sep : Char) (a b : List Char) (h : sep ∉ a) :
    split sep (a ++ sep :: b) = a :: split sep b := by
  induction a with
  | nil => simp [split]
  | cons c cs ih =>
    have hc : c ≠ sep := fun hEq => h (by simp [hEq])
    have hcs : sep ∉ cs := fun hm => h (List.mem_cons_of_mem _ hm)
    simp [split, hc, ih hcs]

theorem trimStart_append_of_all (pad t : List Char) (h : pad.all isJsWhitespace = true) :
    trimStart (pad ++ t) = trimStart t := by
  induction pad with
  | nil => rfl
  | cons c cs ih =>
    simp only [List.all_cons, Bool.and_eq_true] at h
    simp [trimStart, h.1, ih h.2]

theorem trimStart_of_head (t : List Char) (h : t.head?.any isJsWhitespace = false) :
    trimStart t = t := by
  cases t with
  | nil => rfl
  | cons c cs =>
    have hc : isJsWhitespace c = false := by simpa using h
    simp [trimStart, hc]

theorem trim_padded (padL body padR : List Char)
    (hL : padL.all isJsWhitespace = true) (hR : padR.all isJsWhitespace = true)
    (hne : body ≠ [])
    (hHead : body.head?.any isJsWhitespace = false)
    (hLast : body.getLast?.any isJsWhitespace = false) :
    trim (padL ++ body ++ padR) = body := by
  have h1 : trimStart (padL ++ body ++ padR) = body ++ padR := by
    rw [List.append_assoc, trimStart_append_of_all _ _ hL]
    apply trimStart_of_head
    cases body with
    | nil => exact absurd rfl hne
    | cons c cs => simpa using hHead
  have hR2 : padR.reverse.all isJsWhitespace = true := by
    simpa [List.all_eq_true] using hR
  have h2 : trimStart (padR.reverse ++ body.reverse) = body.reverse := by
    rw [trimStart_append_of_all _ _ hR2]
    apply trimStart_of_head
    simpa [List.head?_reverse] using hLast
  unfold trim trimEnd
  rw [h1, List.reverse_append, h2, List.reverse_reverse]

theorem substring_name_iff (name value n : List Char)
    (hname : '=' ∉ name) (hn : '=' ∉ n) :
    substringTo (name ++ '=' :: value) (n.length + 1) = n ++ ['='] ↔ name = n := by
  induction name generalizing n with
  | nil =>
    cases n with
    | nil => simp [substringTo]
    | cons c cs =>
      have hc : c ≠ '=' := fun hEq => hn (by simp [hEq])
      simp only [substringTo, List.nil_append, List.length_cons, List.take_succ_cons,
        List.cons_append, List.cons.injEq]
      constructor
      · intro h; exact absurd h.1.symm hc
      · intro h; exact absurd h (by simp)
  | cons d ds ih =>
    have hd : d ≠ '=' := fun hEq => hname (by simp [hEq])
    have hds : '=' ∉ ds := fun hm => hname (List.mem_cons_of_mem _ hm)
    cases n with
    | nil =>
      simp only [substringTo, List.cons_append, List.length_nil, Nat.zero_add,
        List.take_succ_cons, List.take_zero, List.nil_append, List.cons.injEq, and_true]
      constructor
      · intro h; exact absurd h hd
      · intro h; exact absurd h (by simp)
    | cons c cs =>
      have hcs : '=' ∉ cs := fun hm => hn (List.mem_cons_of_mem _ hm)
      have := ih cs hds hcs
      simp only [substringTo] at this
      simp only [substringTo, List.cons_append, List.length_cons, List.take_succ_cons,
        List.cons.injEq, this]

theorem substringFrom_name (name value : List Char) :
    substringFrom (name ++ '=' :: value) (name.length + 1) = value := by
  simp [substringFrom, List.drop_append]

theorem decodeLoop_of_no_percent (s : List Char) (h : '%' ∉ s) (fuel : Nat)
    (hf : s.length < fuel) : decodeLoop fuel s = some s := by
  induction s generalizing fuel with
  | nil =>
    cases fuel with
    | zero => exact absurd hf (by simp)
    | succ k => rfl
  | cons c cs ih =>
    cases fuel with
    | zero => exact absurd hf (by simp)
    | succ k =>
      have hc : c ≠ '%' := fun hEq => h (by simp [hEq])
      have hcs : '%' ∉ cs := fun hm => h (List.mem_cons_of_mem _ hm)
      have hk : cs.length < k := by simpa using hf
      simp [decodeLoop, hc, ih hcs k hk]

theorem decodeURIComponent_of_no_percent (s : List Char) (h : '%' ∉ s) :
    decodeURIComponent s = some s :=
  decodeLoop_of_no_percent s h _ (Nat.lt_succ_self _)

theorem not_mem_of_all_whitespace (c : Char) (hc : isJsWhitespace c = false)
    (pad : List Char) (h : pad.all isJsWhitespace = true) : c ∉ pad := by
  intro hm
  have := (List.all_eq_true.mp h) c hm
  simp [hc] at this

theorem CookieEntry.wellFormed_unpack (e : CookieEntry) (h : e.wellFormed = true) :
    e.padLeft.all isJsWhitespace = true ∧ e.padRight.all isJsWhitespace = true ∧
    ';' ∉ e.name ∧ '=' ∉ e.name ∧ e.name.head?.any isJsWhitespace = false ∧
    ';' ∉ e.value ∧ '%' ∉ e.value ∧ e.value.getLast?.any isJsWhitespace = false := by
  simp only [CookieEntry.wellFormed, Bool.and_eq_true, Bool.not_eq_true'] at h
  obtain ⟨⟨⟨⟨⟨⟨⟨h1, h2⟩, h3⟩, h4⟩, h5⟩, h6⟩, h7⟩, h8⟩ := h
  have conv : ∀ (c : Char) (l : List Char), l.contains c = false → c ∉ l := by
    intro c l hc hm
    have : l.contains c = true := by simpa using hm
    rw [hc] at this
    exact Bool.noConfusion this
  exact ⟨h1, h2, conv _ _ h3, conv _ _ h4, h5, conv _ _ h6, conv _ _ h7, h8⟩

theorem CookieEntry.trim_text (e : CookieEntry) (h : e.wellFormed = true) :
    trim e.text = e.name ++ '=' :: e.value := by
  obtain ⟨hL, hR, -, -, hHead, -, -, hLast⟩ := e.wellFormed_unpack h
  apply trim_padded _ _ _ hL hR
  · simp
  · cases hname : e.name with
    | nil => simp [isJsWhitespace]
    | cons c cs => simpa [hname] using hHead
  · cases hvalue : e.value using List.reverseRecOn with
    | nil => simp [isJsWhitespace]
    | append_singleton cs c _ =>
      rw [hvalue] at hLast
      have : (e.name ++ '=' :: (cs ++ [c])) = (e.name ++ '=' :: cs) ++ [c] := by simp
      rw [this, List.getLast?_append]
      simpa using hLast

theorem CookieEntry.sep_not_mem_text (e : CookieEntry) (h : e.wellFormed = true) :
    ';' ∉ e.text := by
  obtain ⟨hL, hR, hn, -, -, hv, -, -⟩ := e.wellFormed_unpack h
  have hsp : isJsWhitespace ';' = false := by decide
  have h1 := not_mem_of_all_whitespace ';' hsp _ hL
  have h2 := not_mem_of_all_whitespace ';' hsp _ hR
  simp [CookieEntry.text, h1, h2, hn, hv]

theorem split_cookieString (e : CookieEntry) (es : List CookieEntry)
    (h : ∀ x ∈ e :: es, x.wellFormed = true) :
    split ';' (cookieString (e :: es)) = (e :: es).map CookieEntry.text := by
  induction es generalizing e with
  | nil =>
    simpa [cookieString] using
      split_of_not_mem ';' e.text (e.sep_not_mem_text (h e (by simp)))
  | cons e2 es ih =>
    have he := e.sep_not_mem_text (h e (by simp))
    have hrest : ∀ x ∈ e2 :: es, x.wellFormed = true :=
      fun x hx => h x (List.mem_cons_of_mem _ hx)
    simp only [cookieString, split_append_sep _ _ _ he, ih e2 hrest, List.map_cons]

theorem cookieString_ne_nil (e : CookieEntry) (es : List CookieEntry) :
    cookieString (e :: es) ≠ [] := by
  cases es with
  | nil => simp [cookieString, CookieEntry.text]
  | cons e2 es => simp [cookieString, CookieEntry.text]

theorem getCookieLoop_texts (n : List Char) (hn : '=' ∉ n) (es : List CookieEntry)
    (h : ∀ x ∈ es, x.wellFormed = true) :
    getCookieLoop n (es.map CookieEntry.text) = some (firstNamed n es) := by
  induction es with
  | nil => rfl
  | cons e es ih =>
    have hwf := h e (by simp)
    obtain ⟨-, -, -, hname, -, -, hpct, -⟩ := e.wellFormed_unpack hwf
    have hrest : ∀ x ∈ es, x.wellFormed = true :=
      fun x hx => h x (List.mem_cons_of_mem _ hx)
    simp only [List.map_cons, getCookieLoop, e.trim_text hwf,
      substring_name_iff e.name e.value n hname hn]
    by_cases hEq : e.name = n
    · subst hEq
      simp [firstNamed, substringFrom_name, decodeURIComponent_of_no_percent _ hpct]
    · simp only [hEq, if_false, ih hrest]
      simp [firstNamed, List.find?_cons, hEq]

/-! ## Cookie parsing -/

/-- C1, as the code has it: on a cookie string made of well-formed `name=value`
entries separated by `;`, with optional white space around each entry and no `%`
character in the values, `getCookie(n)` for a name `n` that holds no `=` returns
the value of the first entry whose name is exactly `n`, and `null` when no entry
is named `n`; this covers the empty cookie string. On
`"a=1; csrftoken=XYZ; b=2"` the result for `csrftoken` is `"XYZ"`, and a cookie
named `xcsrftoken` or `csrftoken2` is not taken for it. -/
theorem getCookie_first_named (entries : List CookieEntry) (n : List Char)
    (hwf : ∀ e ∈ entries, e.wellFormed = true) (hn : '=' ∉ n) :
    getCookie (cookieString entries) n = some (firstNamed n entries) ∧
    getCookie [] n = some none ∧
    getCookie "a=1; csrftoken=XYZ; b=2".toList "csrftoken".toList
      = some (some "XYZ".toList) ∧
    getCookie "xcsrftoken=A; csrftoken2=B".toList "csrftoken".toList = some none := by
  refine ⟨?_, rfl, by decide, by decide⟩
  cases entries with
  | nil => rfl
  | cons e es =>
    unfold getCookie
    rw [if_pos (cookieString_ne_nil e es), split_cookieString e es hwf]
    exact getCookieLoop_texts n hn (e :: es) hwf

/-- Witness for C1: three padded entries, the second and third both named
`csrftoken`; the first of the two is returned. -/
theorem getCookie_first_named_witness :
    getCookie " a=1 ; csrftoken=XYZ;\tcsrftoken=other".toList "csrftoken".toList
      = some (some "XYZ".toList) :=
  (getCookie_first_named
    [⟨[' '], ['a'], ['1'], [' ']⟩,
     ⟨[' '], "csrftoken".toList, "XYZ".toList, []⟩,
     ⟨['\t'], "csrftoken".toList, "other".toList, []⟩]
    "csrftoken".toList (by decide) (by decide)).1

/-- C1 fails as stated: a value with a `%` that starts no percent-escape makes
`decodeURIComponent` throw, so `getCookie` returns nothing for the entry named
`a` of `"a=100%"`; and for the requested name `a=b` the entry `a=b=c`, whose name
is `a`, is taken for a match and `"c"` is returned where no entry is named
`a=b`. -/
theorem getCookie_throws_or_matches_inside_value :
    getCookie "a=100%".toList "a".toList = none ∧
    decodeURIComponent "100%".toList = none ∧
    getCookie "a=b=c".toList "a=b".toList = some (some "c".toList) ∧
    firstNamed "a=b".toList [⟨[], "a".toList, "b=c".toList, []⟩] = none ∧
    cookieString [⟨[], "a".toList, "b=c".toList, []⟩] = "a=b=c".toList := by
  refine ⟨by decide, by decide, by decide, by decide, by decide⟩

/-! ## Rounding -/

theorem excessBits_spec (fuel p : Nat) (h : p ≤ fuel) :
    p / 2 ^ excessBits fuel p < 2 ^ 53 ∧
    (excessBits fuel p ≠ 0 → 2 ^ 53 ≤ p / 2 ^ (excessBits fuel p - 1)) := by
  induction fuel generalizing p with
  | zero =>
    have hp : p = 0 := Nat.le_zero.mp h
    subst hp
    simp [excessBits]
  | succ k ih =>
    unfold excessBits
    by_cases hlt : p < 2 ^ 53
    · rw [if_pos hlt]
      exact ⟨by simpa using hlt, fun hc => absurd rfl hc⟩
    · rw [if_neg hlt]
      have hge : 2 ^ 53 ≤ p := Nat.le_of_not_lt hlt
      have hhalf : p / 2 ≤ k := by
        have : 0 < p := lt_of_lt_of_le (by norm_num) hge
        omega
      obtain ⟨h1, h2⟩ := ih (p / 2) hhalf
      refine ⟨?_, fun _ => ?_⟩
      · have hS : 2 ^ (excessBits k (p / 2) + 1) = 2 * 2 ^ excessBits k (p / 2) := by ring
        rw [hS, ← Nat.div_div_eq_div_mul]
        exact h1
      · rw [Nat.add_sub_cancel]
        by_cases h0 : excessBits k (p / 2) = 0
        · simpa [h0] using hge
        · have := h2 h0
          obtain ⟨j, hj⟩ := Nat.exists_eq_succ_of_ne_zero h0
          rw [hj] at this ⊢
          rw [Nat.succ_sub_one, Nat.div_div_eq_div_mul] at this
          have hS : 2 ^ j.succ = 2 * 2 ^ j := by rw [Nat.succ_eq_add_one]; ring
          rw [hS]
          exact this

/-- The rounded significand, scaled back to the exponent of the argument, is
within a relative distance `2 ^ (-53)` of the argument. -/
theorem roundToBinary64_error (p : Nat) (e : Int) :
    ∃ N : Nat, (roundToBinary64 p e).toRat = (N : ℚ) * (2 : ℚ) ^ e ∧
      N * 2 ^ 53 ≤ p * 2 ^ 53 + p ∧ p * 2 ^ 53 ≤ N * 2 ^ 53 + p := by
  obtain ⟨-, hsh⟩ := excessBits_spec p p (Nat.le_refl p)
  unfold roundToBinary64
  simp only
  by_cases h0 : excessBits p p = 0
  · simp only [h0, if_true]
    exact ⟨p, rfl, by omega, by omega⟩
  · simp only [h0, if_false]
    obtain ⟨j, hj⟩ := Nat.exists_eq_succ_of_ne_zero h0
    have hge := hsh h0
    rw [hj, Nat.succ_sub_one] at hge
    rw [hj, Nat.succ_sub_one]
    have hS : 2 ^ j.succ = 2 * 2 ^ j := by rw [Nat.succ_eq_add_one]; ring
    have hHpos : 0 < 2 ^ j := Nat.two_pow_pos _
    have hH : 2 ^ 53 * 2 ^ j ≤ p := (Nat.le_div_iff_mul_le hHpos).mp hge
    have hdm : 2 ^ j.succ * (p / 2 ^ j.succ) + p % 2 ^ j.succ = p := Nat.div_add_mod p _
    have hr : p % 2 ^ j.succ < 2 ^ j.succ := Nat.mod_lt _ (Nat.two_pow_pos _)
    have hcast : ∀ q : Nat, (⟨q, e + (j.succ : Nat)⟩ : F64).toRat
        = ((q * 2 ^ j.succ : Nat) : ℚ) * (2 : ℚ) ^ e := by
      intro q
      simp only [F64.toRat]
      rw [zpow_add₀ (by norm_num : (2 : ℚ) ≠ 0), zpow_natCast]
      push_cast
      ring
    generalize hA : p / 2 ^ j.succ = q at *
    generalize hR : p % 2 ^ j.succ = r at *
    generalize hHv : 2 ^ j = H at *
    have hqS : q * 2 ^ j.succ = 2 * H * q := by rw [hS]; ring
    have hq1S : (q + 1) * 2 ^ j.succ = 2 * H * q + 2 * H := by rw [hS]; ring
    rw [hS] at hdm hr
    norm_num at hH
    split
    · next hup =>
      refine ⟨(q + 1) * 2 ^ j.succ, hcast _, ?_, ?_⟩
      · rw [hq1S]
        rcases hup with hup | ⟨hup, -⟩ <;> norm_num <;> nlinarith
      · rw [hq1S]
        norm_num
        nlinarith
    · next hdown =>
      have hle : r ≤ H := by
        by_contra hc
        exact hdown (Or.inl (Nat.lt_of_not_le hc))
      refine ⟨q * 2 ^ j.succ, hcast _, ?_, ?_⟩
      · rw [hqS]
        norm_num
        nlinarith
      · rw [hqS]
        norm_num
        nlinarith

/-- The rounding is to the nearest significand at the spacing of the binade of
the argument, ties to even. -/
theorem roundToBinary64_nearest (p : Nat) (e : Int) :
    ∃ sh m : Nat, roundToBinary64 p e = ⟨m, e + sh⟩ ∧ nearestTiesEven p sh m ∧
      (sh = 0 ∨ 2 ^ (52 + sh) ≤ p) ∧ p < 2 ^ (53 + sh) := by
  obtain ⟨hlt, hsh⟩ := excessBits_spec p p (Nat.le_refl p)
  refine ⟨excessBits p p, (roundToBinary64 p e).m, ?_, ?_, ?_, ?_⟩
  · unfold roundToBinary64
    simp only
    split
    · next h0 => simp [h0]
    · split <;> rfl
  · unfold roundToBinary64 nearestTiesEven
    simp only
    by_cases h0 : excessBits p p = 0
    · simp only [h0, if_true, pow_zero, Nat.mul_one]
      omega
    · simp only [h0, if_false]
      obtain ⟨j, hj⟩ := Nat.exists_eq_succ_of_ne_zero h0
      rw [hj, Nat.succ_sub_one]
      have hS : 2 ^ j.succ = 2 * 2 ^ j := by rw [Nat.succ_eq_add_one]; ring
      have hHpos : 0 < 2 ^ j := Nat.two_pow_pos _
      have hdm : 2 ^ j.succ * (p / 2 ^ j.succ) + p % 2 ^ j.succ = p := Nat.div_add_mod p _
      have hr : p % 2 ^ j.succ < 2 ^ j.succ := Nat.mod_lt _ (Nat.two_pow_pos _)
      rw [hS] at hdm hr ⊢
      generalize p / (2 * 2 ^ j) = q at *
      generalize p % (2 * 2 ^ j) = r at *
      generalize 2 ^ j = H at *
      have hT : ∃ T, T = H * q := ⟨_, rfl⟩
      obtain ⟨T, hTq⟩ := hT
      have hq1 : (q + 1) * (2 * H) = 2 * T + 2 * H := by rw [hTq]; ring
      have hq0 : q * (2 * H) = 2 * T := by rw [hTq]; ring
      have hp : 2 * T + r = p := by rw [hTq, ← hdm]; ring
      split
      · next hup =>
        simp only [hq1]
        refine ⟨by omega, by omega, fun htie => ?_⟩
        rcases hup with hup | ⟨-, hodd⟩
        · omega
        · omega
      · next hdown =>
        simp only [hq0]
        have hle : r ≤ H := by
          by_contra hc
          exact hdown (Or.inl (Nat.lt_of_not_le hc))
        refine ⟨by omega, by omega, fun htie => ?_⟩
        have hrH : r = H := by omega
        by_contra hodd
        exact hdown (Or.inr ⟨hrH, by omega⟩)
  · by_cases h0 : excessBits p p = 0
    · exact Or.inl h0
    · right
      have hge := hsh h0
      obtain ⟨j, hj⟩ := Nat.exists_eq_succ_of_ne_zero h0
      rw [hj, Nat.succ_sub_one] at hge
      rw [hj]
      have hpow : 2 ^ (52 + j.succ) = 2 ^ 53 * 2 ^ j := by
        rw [Nat.succ_eq_add_one]; ring
      rw [hpow]
      exact (Nat.le_div_iff_mul_le (Nat.two_pow_pos _)).mp hge
  · have hpow : 2 ^ (53 + excessBits p p) = 2 ^ 53 * 2 ^ excessBits p p := by ring
    rw [hpow]
    exact (Nat.div_lt_iff_lt_mul (Nat.two_pow_pos _)).mp hlt

/-- The integer chosen by `toFixed(0)` is the nearest one, the larger of two
equally near ones. -/
theorem toFixedInt_nearest (x : F64) :
    (toFixedInt x : ℚ) - 1 / 2 ≤ x.toRat ∧ x.toRat < (toFixedInt x : ℚ) + 1 / 2 := by
  unfold toFixedInt F64.toRat
  by_cases he : 0 ≤ x.e
  · simp only [he, if_true]
    obtain ⟨k, hk⟩ := Int.eq_ofNat_of_zero_le he
    rw [hk]
    simp only [Int.toNat_ofNat, zpow_natCast]
    push_cast
    constructor <;> linarith
  · simp only [he, if_false]
    have hneg : x.e < 0 := Int.lt_of_not_ge he
    obtain ⟨k, hk⟩ := Int.exists_eq_neg_ofNat (le_of_lt hneg)
    have hk0 : k ≠ 0 := by
      intro h0
      rw [hk, h0] at hneg
      simp at hneg
    obtain ⟨j, hj⟩ := Nat.exists_eq_succ_of_ne_zero hk0
    rw [hk, hj]
    simp only [neg_neg, Int.toNat_ofNat, Nat.succ_sub_one]
    have hS : 2 ^ j.succ = 2 * 2 ^ j := by rw [Nat.succ_eq_add_one]; ring
    have hHpos : 0 < 2 ^ j := Nat.two_pow_pos _
    have hdm := Nat.div_add_mod (x.m + 2 ^ j) (2 ^ j.succ)
    have hr := Nat.mod_lt (x.m + 2 ^ j) (Nat.two_pow_pos _ : 0 < 2 ^ j.succ)
    rw [hS] at hdm hr ⊢
    generalize (x.m + 2 ^ j) / (2 * 2 ^ j) = n at *
    generalize (x.m + 2 ^ j) % (2 * 2 ^ j) = r at *
    rw [zpow_neg, zpow_natCast]
    have hSq : ((2 : ℚ) ^ j.succ) = 2 * (2 : ℚ) ^ j := by
      rw [Nat.succ_eq_add_one, pow_succ, mul_comm]
    rw [hSq]
    have hHq : (0 : ℚ) < (2 : ℚ) ^ j := by positivity
    have hdmq : (2 : ℚ) * 2 ^ j * n + r = x.m + 2 ^ j := by exact_mod_cast hdm
    have hrq : (r : ℚ) < 2 * 2 ^ j := by exact_mod_cast hr
    have hr0 : (0 : ℚ) ≤ r := Nat.cast_nonneg r
    generalize (2 : ℚ) ^ j = H at *
    have hinv : (x.m : ℚ) * (2 * H)⁻¹ = (x.m : ℚ) / (2 * H) := by
      rw [div_eq_mul_inv]
    rw [hinv]
    constructor
    · rw [le_div_iff₀ (by linarith)]
      nlinarith
    · rw [div_lt_iff₀ (by linarith)]
      nlinarith

/-! ## Validation metrics -/

/-- C2: for every `corrections_summary` the text of the total row rendered by
`showValidationSuccess` is `Total Expected: ` followed by the sum of the lengths
of `kept_correct`, `false_positives`, `false_negatives` and
`wrong_classifications`, an absent sequence counting as 0, and this text is part
of the markup assigned to the success element; for
`{kept_correct:[1,2], false_positives:[3], false_negatives:[],
wrong_classifications:[]}` the total is 3. -/
theorem totalExpected_is_sum_of_lengths (message : String) (feedbackScore : F64)
    (c : Corrections) :
    (computeMetrics c).totalExpected =
      (c.kept_correct.map List.length).getD 0 +
      (c.false_positives.map List.length).getD 0 +
      (c.false_negatives.map List.length).getD 0 +
      (c.wrong_classifications.map List.length).getD 0 ∧
    totalExpectedText (computeMetrics c) =
      "Total Expected: " ++ Nat.repr ((computeMetrics c).totalExpected) ∧
    (∃ pre post : String, validationHtml message feedbackScore c =
      pre ++ totalExpectedText (computeMetrics c) ++ post) ∧
    totalExpectedText (computeMetrics ⟨some [1, 2], some [3], some [], some []⟩) =
      "Total Expected: 3" := by
  refine ⟨?_, rfl, ?_, by decide⟩
  · have hlen : ∀ o : Option (List Nat), lengthOrZero o = (o.map List.length).getD 0 := by
      intro o
      cases o <;> rfl
    simp only [computeMetrics, hlen]
  · refine ⟨validationHtmlHead message (computeMetrics c) ++
      "\n" ++
      "                    <div class=\"metric-row total\">\n" ++
      "                        <span class=\"metric-icon\">📊</span>\n" ++
      "                        <span class=\"metric-text\">",
      "</span>\n" ++
      "                    </div>\n" ++
      "                    <div class=\"metric-row score\">\n" ++
      "                        <span class=\"metric-icon\">🎯</span>\n" ++
      "                        <span class=\"metric-text\">" ++
      realScoreText feedbackScore ++
      "</span>\n" ++
      "                    </div>\n" ++
      "                </div>\n" ++
      "            </div>\n" ++
      "        </div>\n" ++
      "    ", ?_⟩
    simp only [validationHtml, String.append_assoc]

/-! ## Score rendering -/

theorem mul_hundred_error (s : F64) :
    |(s.mul F64.hundred).toRat - 100 * s.toRat| ≤ 100 * s.toRat / 2 ^ 53 := by
  obtain ⟨N, hN, h1, h2⟩ := roundToBinary64_error (s.m * 25) (s.e + 2)
  have hx : (s.mul F64.hundred).toRat = (N : ℚ) * (2 : ℚ) ^ (s.e + 2) := hN
  have hs : 100 * s.toRat = ((s.m * 25 : Nat) : ℚ) * (2 : ℚ) ^ (s.e + 2) := by
    simp only [F64.toRat]
    rw [zpow_add₀ (by norm_num : (2 : ℚ) ≠ 0)]
    push_cast
    norm_num
    ring
  rw [hx, hs]
  have hpos : (0 : ℚ) < (2 : ℚ) ^ (s.e + 2) := by positivity
  generalize (2 : ℚ) ^ (s.e + 2) = E at *
  generalize s.m * 25 = p at *
  have h1q : (N : ℚ) * 2 ^ 53 ≤ (p : ℚ) * 2 ^ 53 + p := by exact_mod_cast h1
  have h2q : (p : ℚ) * 2 ^ 53 ≤ (N : ℚ) * 2 ^ 53 + p := by exact_mod_cast h2
  have hfac : (N : ℚ) * E - (p : ℚ) * E = ((N : ℚ) - p) * E := by ring
  rw [hfac, abs_mul, abs_of_pos hpos]
  have hdiv : (p : ℚ) * E / 2 ^ 53 = ((p : ℚ) / 2 ^ 53) * E := by ring
  rw [hdiv]
  apply mul_le_mul_of_nonneg_right _ (le_of_lt hpos)
  have hd : (p : ℚ) / 2 ^ 53 * 2 ^ 53 = p := by
    field_simp
  generalize (p : ℚ) / 2 ^ 53 = d at *
  rw [abs_le]
  constructor
  · norm_num at h1q h2q hd ⊢
    linarith
  · norm_num at h1q h2q hd ⊢
    linarith

theorem toRat_nonneg (s : F64) : 0 ≤ s.toRat := by
  unfold F64.toRat
  positivity

theorem percent_le_hundred (s : F64) (h1 : s.toRat ≤ 1) :
    toFixedInt (s.mul F64.hundred) ≤ 100 := by
  have herr := mul_hundred_error s
  have hnear := (toFixedInt_nearest (s.mul F64.hundred)).1
  have h0 := toRat_nonneg s
  rw [abs_le] at herr
  have hx : (s.mul F64.hundred).toRat ≤ 100 * s.toRat + 100 * s.toRat / 2 ^ 53 := by
    linarith [herr.2]
  have hsmall : 100 * s.toRat / 2 ^ 53 ≤ 100 / 2 ^ 53 := by
    apply div_le_div_of_nonneg_right _ (by norm_num)
    linarith
  have hq : (toFixedInt (s.mul F64.hundred) : ℚ) < 101 := by
    have : (100 : ℚ) / 2 ^ 53 < 1 / 2 := by norm_num
    linarith
  have : toFixedInt (s.mul F64.hundred) < 101 := by exact_mod_cast hq
  omega

/-- C3, as the code has it: for every binary64 `feedback_score` `s` between 0
and 1, the score row rendered by `showValidationSuccess` shows an integer `n`
followed by `%` and nothing else, where `n` is the integer nearest to the
binary64 product `s * 100` the script computes, the larger one at a tie, and `n`
is at most 100. The computed product is the exact product `100 * s` rounded to
the nearest binary64, ties to even, hence within a relative distance `2 ^ (-53)`
of it. The Number written `0.876` renders as `88%`. -/
theorem score_renders_nearest_percent (s : F64) (_hs : s.isBinary64 = true)
    (h1 : s.toRat ≤ 1) :
    realScoreText s = "Real Score: " ++ Nat.repr (toFixedInt (s.mul F64.hundred)) ++ "%" ∧
    (toFixedInt (s.mul F64.hundred) : ℚ) - 1 / 2 ≤ (s.mul F64.hundred).toRat ∧
    (s.mul F64.hundred).toRat < (toFixedInt (s.mul F64.hundred) : ℚ) + 1 / 2 ∧
    toFixedInt (s.mul F64.hundred) ≤ 100 ∧
    |(s.mul F64.hundred).toRat - 100 * s.toRat| ≤ 100 * s.toRat / 2 ^ 53 ∧
    (∃ sh m : Nat, s.mul F64.hundred = ⟨m, s.e + 2 + sh⟩ ∧
      nearestTiesEven (s.m * 25) sh m ∧
      (sh = 0 ∨ 2 ^ (52 + sh) ≤ s.m * 25) ∧ s.m * 25 < 2 ^ (53 + sh)) ∧
    realScoreText ⟨7890306547153109, -53⟩ = "Real Score: 88%" ∧
    |(⟨7890306547153109, -53⟩ : F64).toRat - 876 / 1000| ≤ 1 / 2 ^ 54 := by
  have hnear := toFixedInt_nearest (s.mul F64.hundred)
  refine ⟨rfl, hnear.1, hnear.2, percent_le_hundred s h1, mul_hundred_error s,
    roundToBinary64_nearest (s.m * 25) (s.e + 2), by decide, ?_⟩
  simp only [F64.toRat]
  norm_num [abs_le]

/-- Witness for C3: the Number written `0.876`. -/
theorem score_renders_nearest_percent_witness :
    realScoreText ⟨7890306547153109, -53⟩ =
      "Real Score: " ++ Nat.repr (toFixedInt (F64.mul ⟨7890306547153109, -53⟩ F64.hundred))
        ++ "%" ∧
    toFixedInt (F64.mul ⟨7890306547153109, -53⟩ F64.hundred) ≤ 100 :=
  have h := score_renders_nearest_percent ⟨7890306547153109, -53⟩ (by decide)
    (by simp only [F64.toRat]; norm_num)
  ⟨h.1, h.2.2.2.1⟩

/-- C3 fails as stated: the binary64 written `0.015` lies below `0.015`, so
`100 * s` is below `1.5` and its nearest integer is 1; the script computes the
product as exactly `1.5` and renders `2%`. -/
theorem score_rounds_the_computed_product :
    F64.isBinary64 ⟨1080863910568919, -56⟩ = true ∧
    (⟨1080863910568919, -56⟩ : F64).toRat ≤ 1 ∧
    |(⟨1080863910568919, -56⟩ : F64).toRat - 15 / 1000| ≤ 1 / 2 ^ 57 ∧
    realScoreText ⟨1080863910568919, -56⟩ = "Real Score: 2%" ∧
    (F64.mul ⟨1080863910568919, -56⟩ F64.hundred).toRat = 3 / 2 ∧
    |100 * (⟨1080863910568919, -56⟩ : F64).toRat - 1| < 1 / 2 ∧
    ¬ (|100 * (⟨1080863910568919, -56⟩ : F64).toRat - 2| ≤ 1 / 2) := by
  have hmul : F64.mul ⟨1080863910568919, -56⟩ F64.hundred = ⟨6755399441055744, -52⟩ := by
    decide
  refine ⟨by decide, ?_, ?_, by decide, ?_, ?_, ?_⟩
  · simp only [F64.toRat]; norm_num
  · simp only [F64.toRat]; norm_num [abs_le]
  · rw [hmul]; simp only [F64.toRat]; norm_num
  · simp only [F64.toRat]; norm_num [abs_lt]
  · simp only [F64.toRat]; norm_num [abs_le]

/-! ## Declined confirmation -/

/-- C6: for every page state, declining the confirmation prompt of
`validatePage` leaves the whole page state as it was: no request is issued or
outstanding, the validation trigger keeps its enabled flag and its label, the
progress indicator keeps its visibility, and no banner or widget is created. As
a step of the state machine the declined click ends in the state it started
from. -/
theorem validatePage_declined_changes_nothing (p : Page) :
    validatePage false p = p ∧
    (validatePage false p).requests = p.requests ∧
    (validatePage false p).pendingValidate = p.pendingValidate ∧
    (validatePage false p).validateBtn = p.validateBtn ∧
    (validatePage false p).learningProgress = p.learningProgress ∧
    (validatePage false p).bodyAlerts = p.bodyAlerts ∧
    (validatePage false p).mainContentFront = p.mainContentFront ∧
    (validatePage false p).widgets = p.widgets ∧
    step p (Step.clickValidate false) =
      (match p.validateBtn with
        | some b => if b.disabled then none else some p
        | none => none) := by
  have h : validatePage false p = p := rfl
  refine ⟨h, ?_, ?_, ?_, ?_, ?_, ?_, ?_, ?_⟩ <;> try rw [h]
  simp only [step, h]

/-! ## Settling of a ValidatePage request -/

/-- C8: when a ValidatePage request settles with a failure, an error banner is
appended to the body, the validation trigger is enabled again with the label
`Validate Page`, and the progress indicator is hidden. For a response with
`success` false the banner ends with the error string of the response; for a
transport or parse error and for an exception raised while a success response is
handled (a response without `corrections_summary`) it carries the fixed message.
The progress indicator is hidden for every outcome, success included. -/
theorem validate_failure_recovers (p : Page) (e message : String) (score : F64)
    (o : ValidateOutcome) :
    (validateSettled (ValidateOutcome.failure e) p).bodyAlerts =
      p.bodyAlerts ++ [⟨"alert alert-error",
        "<i class=\"fas fa-exclamation-circle\"></i> " ++ ("Erreur: " ++ e)⟩] ∧
    (validateSettled ValidateOutcome.transportError p).bodyAlerts =
      p.bodyAlerts ++ [⟨"alert alert-error",
        "<i class=\"fas fa-exclamation-circle\"></i> " ++
          "Erreur lors de la validation de la page"⟩] ∧
    (validateSettled (ValidateOutcome.success message score none) p).bodyAlerts =
      p.bodyAlerts ++ [⟨"alert alert-error",
        "<i class=\"fas fa-exclamation-circle\"></i> " ++
          "Erreur lors de la validation de la page"⟩] ∧
    (validateSettled (ValidateOutcome.failure e) p).validateBtn =
      p.validateBtn.map (fun b => ⟨false, validateLabel, b.classList⟩) ∧
    (validateSettled ValidateOutcome.transportError p).validateBtn =
      p.validateBtn.map (fun b => ⟨false, validateLabel, b.classList⟩) ∧
    (validateSettled (ValidateOutcome.success message score none) p).validateBtn =
      p.validateBtn.map (fun b => ⟨false, validateLabel, b.classList⟩) ∧
    (validateSettled o p).learningProgress = p.learningProgress.map (fun _ => "none") ∧
    (validateSettled o p).pendingValidate = p.pendingValidate - 1 := by
  refine ⟨rfl, rfl, rfl, rfl, rfl, rfl, ?_, ?_⟩
  · rcases o with ⟨m, s, _ | c⟩ | e2 | _ <;> try rfl
    simp only [validateSettled, validateFinally, updatePageSelector]
    split <;> try split
    all_goals rfl
  · rcases o with ⟨m, s, _ | c⟩ | e2 | _ <;> try rfl
    simp only [validateSettled, validateFinally, updatePageSelector]
    split <;> try split
    all_goals rfl

/-! ## Settling of an AutoAnnotate request -/

/-- C10: when an AutoAnnotate request settles with `success` false and error
`x`, an error banner whose text ends with `x` is appended and no timer, hence no
page reload, is scheduled beyond the dismissal of the banner; when it settles
with `success` true and `annotations_created` `n`, a success banner whose text
holds the decimal digits of `n` is appended; and for every outcome the annotate
trigger is displayed again, the busy indicator is hidden and the request is no
longer outstanding. -/
theorem annotate_settles (p : Page) (x : String) (n : Nat) (o : AnnotateOutcome) :
    (annotateSettled (AnnotateOutcome.failure x) p).bodyAlerts =
      p.bodyAlerts ++ [⟨"alert alert-error",
        "<i class=\"fas fa-exclamation-circle\"></i> " ++ ("Erreur: " ++ x)⟩] ∧
    (annotateSettled (AnnotateOutcome.failure x) p).timers =
      p.timers ++ [(4000, TimerAction.removeAlert)] ∧
    (annotateSettled (AnnotateOutcome.success n) p).bodyAlerts =
      p.bodyAlerts ++ [⟨"alert alert-success",
        "<i class=\"fas fa-check-circle\"></i> " ++
          ("🎉 " ++ Nat.repr n ++ " annotations créées avec IA améliorée!")⟩] ∧
    (annotateSettled o p).annotateBtnDisplay = "flex" ∧
    (annotateSettled o p).aiLoadingDisplay = "none" ∧
    (annotateSettled o p).pendingAnnotate = p.pendingAnnotate - 1 := by
  refine ⟨rfl, rfl, rfl, ?_, ?_, ?_⟩ <;> cases o <;> rfl

/-! ## The learning widget -/

theorem showLearningWidget_widgets_length (p : Page) :
    (showLearningWidget p).widgets.length = max 1 p.widgets.length := by
  unfold showLearningWidget
  cases h : p.widgets with
  | nil => simp
  | cons w ws => simp

theorem iterate_showLearningWidget_length (p : Page) (n : Nat) :
    ((showLearningWidget^[n + 1]) p).widgets.length = max 1 p.widgets.length := by
  induction n generalizing p with
  | zero => simpa using showLearningWidget_widgets_length p
  | succ k ih =>
    rw [Function.iterate_succ_apply, ih, showLearningWidget_widgets_length]
    omega

/-- C9: on a page that holds at most one element with id `learning-widget`
(ids are unique in a document), after any number `n >= 1` of calls to
`showLearningWidget` the page holds exactly one such element. A call creates the
element only when there is none and otherwise leaves the elements with that id
as they are, so a second call adds nothing. -/
theorem learning_widget_is_singleton (p : Page) (n : Nat) (hn : 1 ≤ n)
    (hp : p.widgets.length ≤ 1) :
    ((showLearningWidget^[n]) p).widgets.length = 1 ∧
    (p.widgets = [] →
      (showLearningWidget p).widgets = [⟨"learning-dashboard-widget", "", ""⟩]) ∧
    (p.widgets ≠ [] → (showLearningWidget p).widgets = p.widgets) ∧
    (showLearningWidget (showLearningWidget p)).widgets = (showLearningWidget p).widgets := by
  refine ⟨?_, ?_, ?_, ?_⟩
  · obtain ⟨k, rfl⟩ : ∃ k, n = k + 1 := ⟨n - 1, by omega⟩
    rw [iterate_showLearningWidget_length]
    omega
  · intro h
    simp [showLearningWidget, h]
  · intro h
    cases hw : p.widgets with
    | nil => exact absurd hw h
    | cons w ws => simp [showLearningWidget, hw]
  · cases hw : p.widgets with
    | nil => simp [showLearningWidget, hw]
    | cons w ws => simp [showLearningWidget, hw]

/-- Witness for C9: two calls on a page without a widget. -/
theorem learning_widget_is_singleton_witness :
    ((showLearningWidget^[2]) samplePage).widgets.length = 1 :=
  (learning_widget_is_singleton samplePage 2 (by decide) (by decide)).1

/-! ## Performance tiers -/

set_option maxRecDepth 100000

theorem digitsToNumber_toDigits :
    ∀ n, n < 101 → digitsToNumber (Nat.toDigits 10 n) = some n := by
  decide

theorem stringGe_repr (n k : Nat) (hn : n ≤ 100) :
    stringGe (Nat.repr n) k = decide (k ≤ n) := by
  have h : digitsToNumber (Nat.repr n).data = some n :=
    digitsToNumber_toDigits n (by omega)
  simp only [stringGe, h]

/-- The first declaration of `showLearningWidget` (source lines 170 to 236)
writes, for every snapshot with a binary64 score between 0 and 1, the template
filled with the rounded percentage `r` (the integer `toFixed(0)` renders for
`score * 100`), and its performance indicator holds one label chosen by `r`:
`Excellent` when `r >= 90`, `Good` when `75 <= r < 90`, `Learning` when
`50 <= r < 75`, `Needs Training` when `r < 50`, each with its own icon. -/
theorem tiered_widget_label (d : LearningSnapshot)
    (_hs : d.average_feedback_score.isBinary64 = true)
    (h1 : d.average_feedback_score.toRat ≤ 1) :
    learningWidgetHtmlTiered d =
      tieredTemplate
        (Nat.repr (toFixedInt (d.average_feedback_score.mul F64.hundred)))
        (performance (toFixed0 (d.average_feedback_score.mul F64.hundred))).2
        (performance (toFixed0 (d.average_feedback_score.mul F64.hundred))).1
        (Nat.repr d.total_feedbacks) ∧
    performance (toFixed0 (d.average_feedback_score.mul F64.hundred)) =
      (if 90 ≤ toFixedInt (d.average_feedback_score.mul F64.hundred) then
        ("Excellent", "🏆")
      else if 75 ≤ toFixedInt (d.average_feedback_score.mul F64.hundred) then
        ("Good", "👍")
      else if 50 ≤ toFixedInt (d.average_feedback_score.mul F64.hundred) then
        ("Learning", "🎓")
      else ("Needs Training", "📚")) ∧
    ["🏆", "👍", "🎓", "📚"].Nodup ∧
    toFixedInt (d.average_feedback_score.mul F64.hundred) ≤ 100 := by
  have hle := percent_le_hundred d.average_feedback_score h1
  refine ⟨rfl, ?_, by decide, hle⟩
  simp only [performance, toFixed0, stringGe_repr _ _ hle, decide_eq_true_eq]

/-- C4 fails on the code: for the snapshot with score `15 / 16`, whose
percentage `93.75` is in the `Excellent` tier, the markup the declaration in
effect (the second one, source lines 239 to 278) writes into the widget holds
none of the four labels, while the overridden first declaration (source lines
170 to 236) writes `Excellent` with its icon. -/
theorem effective_widget_carries_no_label :
    (dashboardSettled (DashboardOutcome.success excellentSnapshot)
      (showLearningWidget samplePage)).widgets =
      [⟨"learning-dashboard-widget", learningWidgetHtml excellentSnapshot, "block"⟩] ∧
    (∀ label ∈ performanceLabels,
      includes (learningWidgetHtml excellentSnapshot).data label.data = false) ∧
    90 ≤ 100 * excellentSnapshot.average_feedback_score.toRat ∧
    excellentSnapshot.average_feedback_score.toRat ≤ 1 ∧
    performance (toFixed0 (excellentSnapshot.average_feedback_score.mul F64.hundred)) =
      ("Excellent", "🏆") ∧
    includes (learningWidgetHtmlTiered excellentSnapshot).data "🏆 Excellent".data = true ∧
    includes (learningWidgetHtml excellentSnapshot).data
      "<span class=\"metric-value\">94%</span>".data = true := by
  refine ⟨by decide, by decide, ?_, ?_, by decide, by decide, by decide⟩
  · simp only [excellentSnapshot, F64.toRat]; norm_num
  · simp only [excellentSnapshot, F64.toRat]; norm_num

/-! ## The validation trigger in the state machine -/

theorem annotateWithGroq_trigger (p : Page) :
    (annotateWithGroq p).validateBtn = p.validateBtn ∧
    (annotateWithGroq p).pendingValidate = p.pendingValidate := by
  unfold annotateWithGroq
  split <;> exact ⟨rfl, rfl⟩

theorem annotateSettled_pendingValidate (o : AnnotateOutcome) (p : Page) :
    (annotateSettled o p).pendingValidate = p.pendingValidate := by
  cases o <;> rfl

theorem annotateSettled_trigger_of_not_success (o : AnnotateOutcome) (p : Page)
    (h : (Step.annotateSettles o).isAnnotateSuccess = false) :
    (annotateSettled o p).validateBtn = p.validateBtn := by
  cases o with
  | success n => exact absurd h (by simp [Step.isAnnotateSuccess])
  | failure e => rfl
  | transportError => rfl

theorem dashboardSettled_trigger (o : DashboardOutcome) (p : Page) :
    (dashboardSettled o p).validateBtn = p.validateBtn ∧
    (dashboardSettled o p).pendingValidate = p.pendingValidate := by
  unfold dashboardSettled dashboardSettledWith
  cases o with
  | success d =>
    simp only
    split <;> exact ⟨rfl, rfl⟩
  | transportError => exact ⟨rfl, rfl⟩

theorem validateSettled_pendingValidate (o : ValidateOutcome) (p : Page) :
    (validateSettled o p).pendingValidate = p.pendingValidate - 1 := by
  rcases o with ⟨m, s, _ | c⟩ | e2 | _ <;> try rfl
  simp only [validateSettled, validateFinally, updatePageSelector]
  split <;> try split
  all_goals rfl

theorem validateSettled_success_trigger (message : String) (score : F64)
    (c : Corrections) (p : Page) :
    (validateSettled (ValidateOutcome.success message score (some c)) p).validateBtn =
      p.validateBtn.map
        (fun b => ⟨b.disabled, validatedLabel, classListAdd "validated" b.classList⟩) := by
  simp only [validateSettled, validateFinally, updatePageSelector]
  split <;> try split
  all_goals rfl

theorem validatePage_trigger (p : Page) (b : ValidateBtn) (hb : p.validateBtn = some b) :
    (validatePage true p).validateBtn = some ⟨true, validatingLabel, b.classList⟩ ∧
    (validatePage true p).pendingValidate ≤ p.pendingValidate + 1 := by
  unfold validatePage
  cases hc : getCookie p.cookie "csrftoken".toList with
  | none => simp [hb]
  | some token => simp [hb]

theorem singleFlight_iff (p : Page) :
    singleFlight p = true ↔
      p.pendingValidate ≤ 1 ∧
      (0 < p.pendingValidate → ∃ b, p.validateBtn = some b ∧ b.disabled = true) := by
  unfold singleFlight
  cases hb : p.validateBtn with
  | none =>
    simp only [Bool.and_eq_true, decide_eq_true_eq, Bool.or_eq_true, beq_iff_eq,
      Option.any_none]
    constructor
    · rintro ⟨h1, h2 | h2⟩
      · exact ⟨h1, fun h => absurd h2 (by omega)⟩
      · exact absurd h2 (by simp)
    · rintro ⟨h1, h2⟩
      refine ⟨h1, Or.inl ?_⟩
      by_contra hne
      obtain ⟨b, hb2, -⟩ := h2 (by omega)
      exact Option.noConfusion hb2
  | some b =>
    simp only [Bool.and_eq_true, decide_eq_true_eq, Bool.or_eq_true, beq_iff_eq,
      Option.any_some]
    constructor
    · rintro ⟨h1, h2 | h2⟩
      · exact ⟨h1, fun h => absurd h2 (by omega)⟩
      · exact ⟨h1, fun _ => ⟨b, rfl, h2⟩⟩
    · rintro ⟨h1, h2⟩
      refine ⟨h1, ?_⟩
      by_cases h0 : p.pendingValidate = 0
      · exact Or.inl h0
      · obtain ⟨b2, hb2, hd⟩ := h2 (by omega)
        cases hb2
        exact Or.inr hd

theorem step_singleFlight (p q : Page) (s : Step) (hs : s.overlapsValidation p = false)
    (hstep : step p s = some q) (hp : singleFlight p = true) : singleFlight q = true := by
  rw [singleFlight_iff] at hp ⊢
  obtain ⟨hle, hdis⟩ := hp
  cases s with
  | clickAnnotate =>
    simp only [step] at hstep
    split at hstep
    · cases hstep
      obtain ⟨h1, h2⟩ := annotateWithGroq_trigger p
      rw [h1, h2]
      exact ⟨hle, hdis⟩
    · exact Option.noConfusion hstep
  | clickValidate confirmed =>
    simp only [step] at hstep
    cases hb : p.validateBtn with
    | none => rw [hb] at hstep; exact Option.noConfusion hstep
    | some b =>
      rw [hb] at hstep
      simp only at hstep
      split at hstep
      · exact Option.noConfusion hstep
      · next hd =>
        cases hstep
        have h0 : p.pendingValidate = 0 := by
          by_contra hne
          obtain ⟨b2, hb2, hd2⟩ := hdis (by omega)
          rw [hb] at hb2
          cases hb2
          exact hd hd2
        cases confirmed with
        | false => exact ⟨hle, hdis⟩
        | true =>
          obtain ⟨h1, h2⟩ := validatePage_trigger p b hb
          exact ⟨by omega, fun _ => ⟨_, h1, rfl⟩⟩
  | annotateSettles o =>
    simp only [step] at hstep
    split at hstep
    · cases hstep
      rw [annotateSettled_pendingValidate]
      refine ⟨hle, fun hpos => ?_⟩
      cases o with
      | success n =>
        simp only [Step.overlapsValidation, decide_eq_false_iff_not] at hs
        exact absurd hpos hs
      | failure e => exact hdis hpos
      | transportError => exact hdis hpos
    · exact Option.noConfusion hstep
  | validateSettles o =>
    simp only [step] at hstep
    split at hstep
    · cases hstep
      rw [validateSettled_pendingValidate]
      exact ⟨by omega, fun hpos => absurd hpos (by omega)⟩
    · exact Option.noConfusion hstep
  | dashboardSettles o =>
    simp only [step] at hstep
    split at hstep
    · cases hstep
      obtain ⟨h1, h2⟩ := dashboardSettled_trigger o p
      rw [h1, h2]
      exact ⟨hle, hdis⟩
    · exact Option.noConfusion hstep

theorem runApart_singleFlight (steps : List Step) (p q : Page)
    (hrun : runApart p steps = some q) (hp : singleFlight p = true) :
    singleFlight q = true := by
  induction steps generalizing p with
  | nil =>
    simp only [runApart, Option.some.injEq] at hrun
    rw [← hrun]
    exact hp
  | cons s rest ih =>
    simp only [runApart] at hrun
    split at hrun
    · exact Option.noConfusion hrun
    · next hs =>
      cases hstep : step p s with
      | none => rw [hstep] at hrun; exact Option.noConfusion hrun
      | some r =>
        rw [hstep] at hrun
        exact ih r hrun (step_singleFlight p r s (by simpa using hs) hstep hp)

theorem runApart_run (steps : List Step) (p q : Page)
    (hrun : runApart p steps = some q) : run p steps = some q := by
  induction steps generalizing p with
  | nil => exact hrun
  | cons s rest ih =>
    simp only [runApart] at hrun
    split at hrun
    · exact Option.noConfusion hrun
    · cases hstep : step p s with
      | none => rw [hstep] at hrun; exact Option.noConfusion hrun
      | some r =>
        rw [hstep] at hrun
        simp only [run, hstep]
        exact ih r hrun

theorem validate_failure_trigger (p : Page) (e message : String) (score : F64) :
    (validateSettled (ValidateOutcome.failure e) p).validateBtn =
      p.validateBtn.map (fun b => ⟨false, validateLabel, b.classList⟩) ∧
    (validateSettled ValidateOutcome.transportError p).validateBtn =
      p.validateBtn.map (fun b => ⟨false, validateLabel, b.classList⟩) ∧
    (validateSettled (ValidateOutcome.success message score none) p).validateBtn =
      p.validateBtn.map (fun b => ⟨false, validateLabel, b.classList⟩) :=
  ⟨rfl, rfl, rfl⟩

/-- C5, as the code has it: in every run of the state machine from a loaded
page in which no AutoAnnotate request settles with success while a ValidatePage
request is outstanding, every state has at most one ValidatePage request in
flight, and while one is in flight the validation trigger is disabled. -/
theorem single_validation_in_flight (p0 : Page) (steps : List Step) (p : Page)
    (h0 : p0.isLoaded = true) (hrun : runApart p0 steps = some p) :
    run p0 steps = some p ∧ p.pendingValidate ≤ 1 ∧
    (0 < p.pendingValidate → ∃ b, p.validateBtn = some b ∧ b.disabled = true) := by
  have hp0 : singleFlight p0 = true := by
    simp only [Page.isLoaded, Bool.and_eq_true, beq_iff_eq] at h0
    rw [singleFlight_iff]
    exact ⟨by omega, fun h => absurd h (by omega)⟩
  have hp := (singleFlight_iff p).mp (runApart_singleFlight steps p0 p hrun hp0)
  exact ⟨runApart_run steps p0 p hrun, hp.1, hp.2⟩

/-- Witness for C5: annotate, let the request succeed, then start a validation. -/
theorem single_validation_in_flight_witness :
    ((runApart samplePage sampleSteps).getD samplePage).pendingValidate ≤ 1 :=
  (single_validation_in_flight samplePage sampleSteps
    ((runApart samplePage sampleSteps).getD samplePage) rfl rfl).2.1

/-- C5 fails as stated: an AutoAnnotate request that settles with success while
a ValidatePage request is outstanding enables the trigger again, and a second
click then puts a second ValidatePage request in flight. -/
theorem annotate_success_reenables_during_validation :
    samplePage.isLoaded = true ∧
    (run samplePage overlappingSteps.dropLast).map
      (fun p => (p.pendingValidate, p.validateBtn.map (fun b => b.disabled))) =
      some (1, some false) ∧
    (run samplePage overlappingSteps).map (fun p => p.pendingValidate) = some 2 ∧
    ¬ (∀ p, Reachable p → p.pendingValidate ≤ 1) := by
  have h2 : (run samplePage overlappingSteps).map (fun p => p.pendingValidate) = some 2 := by
    decide
  refine ⟨by decide, by decide, h2, ?_⟩
  intro hall
  cases hrun : run samplePage overlappingSteps with
  | none =>
    rw [hrun] at h2
    exact Option.noConfusion h2
  | some q =>
    rw [hrun] at h2
    have hq : q.pendingValidate = 2 := by simpa using h2
    have := hall q ⟨samplePage, overlappingSteps, by decide, hrun⟩
    omega

/-! ## The validated state -/

theorem isValidated_iff (p : Page) :
    isValidated p = true ↔
      p.pendingValidate = 0 ∧
      ∃ b, p.validateBtn = some b ∧ b.disabled = true ∧ b.innerHTML = validatedLabel := by
  unfold isValidated
  cases hb : p.validateBtn with
  | none => simp
  | some b => simp

theorem step_isValidated (p q : Page) (s : Step) (hs : s.isAnnotateSuccess = false)
    (hstep : step p s = some q) (hp : isValidated p = true) : isValidated q = true := by
  rw [isValidated_iff] at hp ⊢
  obtain ⟨h0, b, hb, hd, hl⟩ := hp
  cases s with
  | clickAnnotate =>
    simp only [step] at hstep
    split at hstep
    · cases hstep
      obtain ⟨h1, h2⟩ := annotateWithGroq_trigger p
      rw [h1, h2]
      exact ⟨h0, b, hb, hd, hl⟩
    · exact Option.noConfusion hstep
  | clickValidate confirmed =>
    simp only [step, hb, hd, if_true] at hstep
    exact Option.noConfusion hstep
  | annotateSettles o =>
    simp only [step] at hstep
    split at hstep
    · cases hstep
      rw [annotateSettled_pendingValidate, annotateSettled_trigger_of_not_success o p hs]
      exact ⟨h0, b, hb, hd, hl⟩
    · exact Option.noConfusion hstep
  | validateSettles o =>
    simp only [step, h0, Nat.lt_irrefl, if_false] at hstep
    exact Option.noConfusion hstep
  | dashboardSettles o =>
    simp only [step] at hstep
    split at hstep
    · cases hstep
      obtain ⟨h1, h2⟩ := dashboardSettled_trigger o p
      rw [h1, h2]
      exact ⟨h0, b, hb, hd, hl⟩
    · exact Option.noConfusion hstep

theorem run_isValidated (steps : List Step) (p q : Page)
    (hsteps : ∀ s ∈ steps, s.isAnnotateSuccess = false)
    (hrun : run p steps = some q) (hp : isValidated p = true) : isValidated q = true := by
  induction steps generalizing p with
  | nil =>
    simp only [run, Option.some.injEq] at hrun
    rw [← hrun]
    exact hp
  | cons s rest ih =>
    simp only [run] at hrun
    cases hstep : step p s with
    | none => rw [hstep] at hrun; exact Option.noConfusion hrun
    | some r =>
      rw [hstep] at hrun
      exact ih r (fun t ht => hsteps t (List.mem_cons_of_mem _ ht)) hrun
        (step_isValidated p r s (hsteps s (by simp)) hstep hp)

/-- C7, as the code has it: when the only outstanding ValidatePage request
settles with success while the trigger is still disabled, the trigger is disabled
and shows the validated label, and it stays so through every later run of steps
none of which is an AutoAnnotate request settling with success; such a step
enables the trigger again with the label `Validate Page`. When the request
settles with a failure instead, the trigger is enabled with the label
`Validate Page`. -/
theorem validated_trigger_stays_disabled (p : Page) (b : ValidateBtn)
    (message e : String) (score : F64) (c : Corrections) (steps : List Step) (q : Page)
    (n : Nat)
    (hb : p.validateBtn = some b) (hd : b.disabled = true) (h1 : p.pendingValidate = 1)
    (hsteps : ∀ s ∈ steps, s.isAnnotateSuccess = false)
    (hrun : run (validateSettled (ValidateOutcome.success message score (some c)) p) steps
      = some q) :
    (validateSettled (ValidateOutcome.success message score (some c)) p).validateBtn =
      some ⟨true, validatedLabel, classListAdd "validated" b.classList⟩ ∧
    (∃ b2, q.validateBtn = some b2 ∧ b2.disabled = true ∧ b2.innerHTML = validatedLabel) ∧
    q.pendingValidate = 0 ∧
    (∃ b2, q.validateBtn = some b2 ∧
      (annotateSettled (AnnotateOutcome.success n) q).validateBtn =
        some ⟨false, validateLabel, b2.classList⟩) ∧
    (validateSettled (ValidateOutcome.failure e) p).validateBtn =
      some ⟨false, validateLabel, b.classList⟩ ∧
    (validateSettled ValidateOutcome.transportError p).validateBtn =
      some ⟨false, validateLabel, b.classList⟩ ∧
    (validateSettled (ValidateOutcome.success message score none) p).validateBtn =
      some ⟨false, validateLabel, b.classList⟩ := by
  have hsucc := validateSettled_success_trigger message score c p
  rw [hb] at hsucc
  simp only [Option.map_some', hd] at hsucc
  have hval : isValidated (validateSettled (ValidateOutcome.success message score (some c)) p)
      = true := by
    rw [isValidated_iff, validateSettled_pendingValidate, h1]
    exact ⟨rfl, _, hsucc, rfl, rfl⟩
  have hq := (isValidated_iff q).mp (run_isValidated steps _ q hsteps hrun hval)
  obtain ⟨hq0, b2, hb2, hd2, hl2⟩ := hq
  have hfail : ∀ o, (o = ValidateOutcome.failure e ∨ o = ValidateOutcome.transportError ∨
      o = ValidateOutcome.success message score none) →
      (validateSettled o p).validateBtn = some ⟨false, validateLabel, b.classList⟩ := by
    intro o ho
    have h8 := validate_failure_trigger p e message score
    rcases ho with rfl | rfl | rfl
    · rw [h8.1, hb]; rfl
    · rw [h8.2.1, hb]; rfl
    · rw [h8.2.2, hb]; rfl
  refine ⟨hsucc, ⟨b2, hb2, hd2, hl2⟩, hq0, ⟨b2, hb2, ?_⟩, hfail _ (Or.inl rfl),
    hfail _ (Or.inr (Or.inl rfl)), hfail _ (Or.inr (Or.inr rfl))⟩
  show (q.validateBtn.map _) = _
  rw [hb2]
  rfl

/-- Witness for C7: a validation of the sample page followed by failed
AutoAnnotate requests and a dashboard response. -/
theorem validated_trigger_stays_disabled_witness :
    ∃ b2, ((run (validateSettled sampleValidation sampleValidating) quietSteps).getD
        samplePage).validateBtn = some b2 ∧
      b2.disabled = true ∧ b2.innerHTML = validatedLabel :=
  (validated_trigger_stays_disabled sampleValidating ⟨true, validatingLabel, []⟩
    "ok" "x" ⟨7890306547153109, -53⟩ ⟨some [1, 2], some [3], some [], some []⟩
    quietSteps
    ((run (validateSettled sampleValidation sampleValidating) quietSteps).getD samplePage)
    0 rfl rfl rfl (by decide) rfl).2.1

/-- C7 fails as stated: after a page has been validated, a later AutoAnnotate
request that settles with success enables the trigger again and restores the
label `Validate Page`. -/
theorem annotate_success_reenables_validated_trigger :
    (run samplePage (revalidationSteps.take 2)).map (fun p => p.validateBtn) =
      some (some ⟨true, validatedLabel, ["validated"]⟩) ∧
    (run samplePage revalidationSteps).map (fun p => p.validateBtn) =
      some (some ⟨false, validateLabel, ["validated"]⟩) := by
  constructor <;> decide


end RlhfAnnotation
